import Mathlib

/-!
Verification of the InterviewPracticePartner frontend (src/frontend) and of the
interview orchestration engine it talks to.  Pure JavaScript string operations
are embedded as functions on `List Char`; network effects (fetch, sendBeacon)
are embedded by passing the outcome of the external call as an explicit
argument and returning the request that was issued.
-/

namespace InterviewPracticePartner

/-! ## JavaScript string primitives, modelled on `List Char` -/

/-- `startsWithL s p` : the char list `s` begins with the char list `p`. -/
def startsWithL : List Char → List Char → Bool
  | _, [] => true
  | [], _ :: _ => false
  | c :: cs, p :: ps => c == p && startsWithL cs ps

/-- `hasSubstr s p` : the char list `p` occurs contiguously inside `s`
(JavaScript `String.prototype.includes`). -/
def hasSubstr : List Char → List Char → Bool
  | [], pat => pat.isEmpty
  | c :: cs, pat => startsWithL (c :: cs) pat || hasSubstr cs pat

/-- ASCII lower-casing of a char list (JavaScript `toLowerCase` on the
ASCII strings this frontend compares against). -/
def toLowerL (l : List Char) : List Char := l.map Char.toLower

/-- Whitespace recognised by JavaScript `trim` / `\s` (ASCII part). -/
def isJsWhitespace (c : Char) : Bool :=
  c == ' ' || c == '\t' || c == '\n' || c == '\r' || c.toNat == 11 || c.toNat == 12

/-- JavaScript `String.prototype.trim` on a char list. -/
def trimL (l : List Char) : List Char :=
  ((l.dropWhile isJsWhitespace).reverse.dropWhile isJsWhitespace).reverse

/-- ASCII letter, as matched by the regex class `[A-Za-z]`. -/
def isAsciiAlpha (c : Char) : Bool :=
  (65 ≤ c.toNat && c.toNat ≤ 90) || (97 ≤ c.toNat && c.toNat ≤ 122)

/-- One character of the regex class `[A-Za-z\s]` used by `NameDialog`. -/
def isAsciiAlphaOrSpace (c : Char) : Bool :=
  isAsciiAlpha c || isJsWhitespace c

/-! ## JSON values and HTTP requests (shape of what `api.js` sends) -/

/-- Minimal JSON model: exactly the shapes `api.js` serialises. -/
inductive Json where
  | str : String → Json
  | obj : List (String × Json) → Json

/-- An HTTP request as issued by `fetch` in `api.js`. -/
structure Request where
  url : String
  method : String
  headers : List (String × String)
  body : Option Json

/-- `API_BASE_URL` from `src/frontend/src/api/api.js`. -/
def API_BASE_URL : String := "http://localhost:5000"

/-! ## `api.js` : `startSession`, `sendMessage`, `deleteSession` -/

/-- The parsed body of a `/interaction/interact` response: the backend
response object with its `reply` field (possibly absent). -/
structure InteractResponse where
  reply : Option String
deriving DecidableEq

/-- Outcome of the `fetch` to `/interaction/interact` as seen by
`sendMessage`: HTTP status flag, status text and parsed JSON data. -/
structure InteractHttp where
  ok : Bool
  statusText : String
  data : InteractResponse
deriving DecidableEq

/-- The request `sendMessage` builds: POST `/interaction/interact` with
JSON body `\x7bmessage: text\x7d`. -/
def interactRequest (text : String) : Request :=
  { url := API_BASE_URL ++ "/interaction/interact"
    method := "POST"
    headers := [("Content-Type", "application/json")]
    body := some (Json.obj [("message", Json.str text)]) }

/-- `sendMessage` from `api.js`: issues the interact request; on a non-ok
response it throws `Failed to send message: ...`; any fetch-level rejection
is logged and rethrown; on an ok response it returns the parsed data. -/
def sendMessage (text : String) (fetched : Except String InteractHttp) :
    Request × Except String InteractResponse :=
  (interactRequest text,
    match fetched with
    | Except.error e => Except.error e
    | Except.ok resp =>
        if resp.ok then Except.ok resp.data
        else Except.error ("Failed to send message: " ++ resp.statusText))

/-- Outcome of the `fetch` to `/session/start`: parsed data is the backend
session object, left opaque as JSON. -/
structure StartHttp where
  ok : Bool
  statusText : String
  data : Json

/-- The request `startSession` builds: POST `/session/start`, no body. -/
def startSessionRequest : Request :=
  { url := API_BASE_URL ++ "/session/start"
    method := "POST"
    headers := [("Content-Type", "application/json")]
    body := none }

/-- `startSession` from `api.js`: POST `/session/start` with no body; on a
non-ok response it throws; otherwise returns the backend session object. -/
def startSession (fetched : Except String StartHttp) :
    Request × Except String Json :=
  (startSessionRequest,
    match fetched with
    | Except.error e => Except.error e
    | Except.ok resp =>
        if resp.ok then Except.ok resp.data
        else Except.error ("Failed to start session: " ++ resp.statusText))

/-- The request the keepalive-fetch fallback of `deleteSession` builds. -/
def deleteRequest : Request :=
  { url := API_BASE_URL ++ "/session/delete"
    method := "POST"
    headers := [("Content-Type", "application/json")]
    body := none }

/-- What `deleteSession` did: a `navigator.sendBeacon` post, or a keepalive
`fetch` whose rejection (if any) was caught and only logged. -/
inductive DeleteDelivery where
  | beacon (url : String) (payload : String)
  | keepaliveFetch (req : Request) (errorLogged : Bool)

/-- `deleteSession` from `api.js`.  `hasSendBeacon` models whether
`navigator.sendBeacon` exists; `fetchOutcome` models the promise of the
fallback fetch.  The result is `Except.ok` in every case: the beacon path
does not wait, and the fetch path attaches `.catch` which only logs. -/
def deleteSession (hasSendBeacon : Bool) (fetchOutcome : Except String Unit) :
    Except String DeleteDelivery :=
  if hasSendBeacon then
    Except.ok (DeleteDelivery.beacon (API_BASE_URL ++ "/session/delete") "\x7b\x7d")
  else
    match fetchOutcome with
    | Except.ok _ => Except.ok (DeleteDelivery.keepaliveFetch deleteRequest false)
    | Except.error _ => Except.ok (DeleteDelivery.keepaliveFetch deleteRequest true)

/-! ## `App.jsx` -/

/-- The handler registered for `beforeunload` on mount: it calls
`deleteSession`. -/
inductive UnloadHandler where
  | callDeleteSession
deriving DecidableEq

/-- One side effect of the mount `useEffect` of `App`. -/
inductive MountEffect where
  | apiStartSession
  | addEventListener (event : String) (handler : UnloadHandler)
deriving DecidableEq

/-- The ordered side effects of `App`'s mount `useEffect`
(`src/frontend/src/App.jsx`): call `startSession()` (errors logged), then
register the `beforeunload` listener that calls `deleteSession`. -/
def appMountEffects : List MountEffect :=
  [MountEffect.apiStartSession,
   MountEffect.addEventListener "beforeunload" UnloadHandler.callDeleteSession]

/-- First placeholder pattern filtered by `handleSendMessage`. -/
def noIntentPat : List Char := "placeholder no intent detected".toList

/-- Second placeholder pattern filtered by `handleSendMessage`. -/
def offTopicPat : List Char := "(placeholder) detected intent: off_topic".toList

/-- Replacement for a reply containing `noIntentPat`. -/
def apologyNoIntent : String :=
  "I am sorry, I won't be able to help you with this query."

/-- Replacement for a reply containing `offTopicPat`. -/
def apologyOffTopic : String :=
  "I am sorry, I can't help you with this query. Shall we move to the next question?"

/-- Bot message appended when `sendMessage` throws. -/
def serverTroubleMsg : String :=
  "Sorry, I'm having trouble connecting to the server right now."

/-- The placeholder filter inside `handleSendMessage`: a truthy reply is
lower-cased and, if it contains one of the two placeholder patterns, it is
replaced by the corresponding fixed apology. -/
def filterReply (reply : Option String) : Option String :=
  match reply with
  | none => none
  | some r =>
    if r.toList = [] then some r
    else
      let lower := toLowerL r.toList
      if hasSubstr lower noIntentPat then some apologyNoIntent
      else if hasSubstr lower offTopicPat then some apologyOffTopic
      else some r

/-- One chat bubble of `App`'s `messages` state (ids and timestamps come
from `Date.now()` and are not part of the verified model). -/
structure ChatMsg where
  role : String
  text : Option String
deriving DecidableEq

/-- The chat state of `App` touched by `handleSendMessage`. -/
structure ChatState where
  messages : List ChatMsg
  botTyping : Bool
deriving DecidableEq

/-- `handleSendMessage` from `App.jsx`.  `outcome` is the result of the
awaited `sendMessage` call (only consulted when the guard passes).  Returns
the final chat state together with the list of requests issued. -/
def handleSendMessage (st : ChatState) (text : String)
    (outcome : Except String InteractResponse) : ChatState × List Request :=
  if trimL text.toList = [] then (st, [])
  else
    let afterUser := st.messages ++ [ChatMsg.mk "user" (some text)]
    match outcome with
    | Except.ok data =>
        ({ messages := afterUser ++ [ChatMsg.mk "bot" (filterReply data.reply)]
           botTyping := false },
         [interactRequest text])
    | Except.error _ =>
        ({ messages := afterUser ++ [ChatMsg.mk "bot" (some serverTroubleMsg)]
           botTyping := false },
         [interactRequest text])

/-! ## `NameDialog.jsx` -/

/-- The `onChange` handler of the name input: the new value is accepted
into the `name` state only when it matches `/^[A-Za-z\s]*$/`. -/
def nameAfterChange (current : String) (inputValue : String) : String :=
  if inputValue.toList.all isAsciiAlphaOrSpace then inputValue else current

/-- The `name` state after a sequence of input change events, starting from
the initial `useState` value `""`. -/
def nameAfterEvents (events : List String) : String :=
  List.foldl nameAfterChange "" events

/-- The submit handler of `NameDialog`: calls `onNameSubmit(name.trim())`
exactly when `name.trim()` is truthy (non-empty); result is the argument
passed to `onNameSubmit`, or `none` when it is not invoked. -/
def nameSubmit (name : String) : Option String :=
  if trimL name.toList = [] then none else some (String.mk (trimL name.toList))

/-! ## The interview orchestration engine

The Flask backend is not part of the checked-in sources; the definitions in
this section are modelled from the specification (§3, §4.2–§4.4). -/

/-- Modelled from the spec: the persisted states of the Session State
Machine (§4.2); `Evaluating` is a transient pseudo-state and is not
persisted, so it is not a constructor here. -/
inductive SMState where
  | AwaitingReady
  | AwaitingAnswer
  | AwaitingClarificationAck
  | Completed
  | Terminated
deriving DecidableEq

/-- Modelled from the spec: the closed intent enumeration (§4.1). -/
inductive Intent where
  | PositiveReady
  | ClarifyRequest
  | Answer
  | OffTopic
  | Unintelligible
deriving DecidableEq

/-- Modelled from the spec: the verdict of the Evaluation Engine (§3). -/
inductive Verdict where
  | Correct
  | PartiallyCorrect
  | Incorrect
deriving DecidableEq

/-- Modelled from the spec: the session fields mutated by the State Machine
(§3); history and timestamps play no role in the transition logic. -/
structure Session where
  state : SMState
  currentQuestionId : Option Nat
  attemptCount : Nat
deriving DecidableEq

/-- Modelled from the spec: everything one turn of the State Machine
consumes besides the session — the classified intent, the Evaluation
Engine's verdict (consulted only on `Answer`), the Question Selector's
outputs, the generated follow-up question, and the retry limit. -/
structure TurnInputs where
  intent : Intent
  verdict : Verdict
  firstQuestion : Nat
  nextQuestion : Option Nat
  followUpQuestion : Nat
  retryLimit : Nat

/-- Modelled from the spec: the outward message emitted by a transition
(§4.2, §6); each constructor is a fixed message template keyed only by the
shown data, so equal constructors mean equal outward messages. -/
inductive Reply where
  | questionPrompt (qid : Nat)
  | refusal (st : SMState)
  | reprompt (st : SMState)
  | hint (qid : Nat)
  | feedback (v : Verdict)
  | feedbackThenPrompt (v : Verdict) (qid : Nat)
  | completion
  | terminated
deriving DecidableEq

/-- Modelled from the spec: one turn of the Session State Machine — the
transition table of §4.2, with `Evaluating` inlined as a routing on the
verdict, `OffTopic`/`Unintelligible` as progress no-ops, new questions
resetting `attemptCount`, and the retry limit bounding `Incorrect`
retries. -/
def stepTurn (s : Session) (inp : TurnInputs) : Session × Reply :=
  match s.state with
  | SMState.Terminated => (s, Reply.terminated)
  | SMState.Completed => (s, Reply.completion)
  | SMState.AwaitingReady =>
    match inp.intent with
    | Intent.PositiveReady =>
        (Session.mk SMState.AwaitingAnswer (some inp.firstQuestion) 0,
         Reply.questionPrompt inp.firstQuestion)
    | Intent.OffTopic => (s, Reply.refusal s.state)
    | _ => (s, Reply.reprompt s.state)
  | SMState.AwaitingAnswer =>
    match inp.intent with
    | Intent.ClarifyRequest => (s, Reply.hint (s.currentQuestionId.getD 0))
    | Intent.OffTopic => (s, Reply.refusal s.state)
    | Intent.Unintelligible => (s, Reply.reprompt s.state)
    | Intent.PositiveReady => (s, Reply.reprompt s.state)
    | Intent.Answer =>
      match inp.verdict with
      | Verdict.Correct =>
        match inp.nextQuestion with
        | some q =>
            (Session.mk SMState.AwaitingAnswer (some q) 0,
             Reply.feedbackThenPrompt Verdict.Correct q)
        | none => ({ s with state := SMState.Completed }, Reply.completion)
      | Verdict.PartiallyCorrect =>
          (Session.mk SMState.AwaitingAnswer (some inp.followUpQuestion) 0,
           Reply.feedbackThenPrompt Verdict.PartiallyCorrect inp.followUpQuestion)
      | Verdict.Incorrect =>
        if s.attemptCount + 1 < inp.retryLimit then
          ({ s with attemptCount := s.attemptCount + 1 }, Reply.feedback Verdict.Incorrect)
        else
          match inp.nextQuestion with
          | some q =>
              (Session.mk SMState.AwaitingAnswer (some q) 0,
               Reply.feedbackThenPrompt Verdict.Incorrect q)
          | none => ({ s with state := SMState.Completed }, Reply.feedback Verdict.Incorrect)
  | SMState.AwaitingClarificationAck =>
    match inp.intent with
    | Intent.OffTopic => (s, Reply.refusal s.state)
    | Intent.Unintelligible => (s, Reply.reprompt s.state)
    | _ => ({ s with state := SMState.AwaitingAnswer },
            Reply.questionPrompt (s.currentQuestionId.getD 0))

/-- The §3 invariant: `currentQuestionId` is non-null whenever the state is
`AwaitingAnswer` or `AwaitingClarificationAck`. -/
def questionNonNullInv (s : Session) : Bool :=
  match s.state with
  | SMState.AwaitingAnswer => s.currentQuestionId.isSome
  | SMState.AwaitingClarificationAck => s.currentQuestionId.isSome
  | _ => true

/-! ## Evaluation Engine (modelled from the spec, §4.4) -/

/-- Modelled from the spec: one rubric criterion (§3). -/
structure RubricCriterion where
  description : String
  weight : ℚ
  requiredConcepts : List (List Char)

/-- Modelled from the spec: the deterministic required-concept presence
check of §4.4 — the criterion's hard requirements, tested against the set
of concepts deterministically matched in the answer. -/
def detCriterion (matched : List Char → Bool) (c : RubricCriterion) : Bool :=
  c.requiredConcepts.all matched

/-- Modelled from the spec: the weighted score of §4.4 — a criterion's
weight contributes exactly when the deterministic check or the semantic
check accepts it. -/
def evalScore (criteria : List RubricCriterion) (matched : List Char → Bool)
    (sem : RubricCriterion → Bool) : ℚ :=
  (criteria.map (fun c => if detCriterion matched c || sem c then c.weight else 0)).sum

/-- Modelled from the spec: threshold routing of the score (§4.4). -/
def verdictOf (low high : ℚ) (score : ℚ) : Verdict :=
  if high ≤ score then Verdict.Correct
  else if low ≤ score then Verdict.PartiallyCorrect
  else Verdict.Incorrect

/-- Ordering of verdicts: `Incorrect < PartiallyCorrect < Correct`. -/
def verdictRank : Verdict → Nat
  | Verdict.Incorrect => 0
  | Verdict.PartiallyCorrect => 1
  | Verdict.Correct => 2

/-! ## Clarification Service (modelled from the spec, §4.3) -/

/-- Modelled from the spec: a question with its rubric criteria and its
pre-authored generic rephrase (§4.3). -/
structure QuestionR where
  prompt : String
  criteria : List RubricCriterion
  genericRephrase : List Char

/-- All `requiredConcepts` keywords of a question's rubric. -/
def rubricKeywords (q : QuestionR) : List (List Char) :=
  (q.criteria.map RubricCriterion.requiredConcepts).flatten

/-- Modelled from the spec: the deterministic guard of the Clarification
Service (§4.3) — scan the oracle output for rubric keywords verbatim and
fall back to the pre-authored generic rephrase when one is found. -/
def clarify (q : QuestionR) (oracleOut : List Char) : List Char :=
  if (rubricKeywords q).any (fun kw => hasSubstr oracleOut kw) then q.genericRephrase
  else oracleOut

/-! ## Substring lemmas -/

theorem startsWithL_self_append (p b : List Char) : startsWithL (p ++ b) p = true := by
  induction p with
  | nil => cases b <;> rfl
  | cons c cs ih => simp [startsWithL, ih]

theorem hasSubstr_of_startsWithL (s pat : List Char) (h : startsWithL s pat = true) :
    hasSubstr s pat = true := by
  cases s with
  | nil =>
    cases pat with
    | nil => rfl
    | cons p ps => simp [startsWithL] at h
  | cons c cs => simp [hasSubstr, h]

theorem hasSubstr_append_left (a t pat : List Char) (h : hasSubstr t pat = true) :
    hasSubstr (a ++ t) pat = true := by
  induction a with
  | nil => simpa using h
  | cons c cs ih => simp [hasSubstr, ih]

theorem hasSubstr_infix (a pat b : List Char) : hasSubstr (a ++ (pat ++ b)) pat = true :=
  hasSubstr_append_left a (pat ++ b) pat
    (hasSubstr_of_startsWithL (pat ++ b) pat (startsWithL_self_append pat b))

theorem toLowerL_append (a b : List Char) : toLowerL (a ++ b) = toLowerL a ++ toLowerL b := by
  simp [toLowerL]

theorem toLowerL_noIntentPat : toLowerL noIntentPat = noIntentPat := by decide

theorem toLowerL_offTopicPat : toLowerL offTopicPat = offTopicPat := by decide

theorem hasSubstr_toLower_of_verbatim (r a b pat : List Char)
    (hpat : toLowerL pat = pat) (h : r = a ++ (pat ++ b)) :
    hasSubstr (toLowerL r) pat = true := by
  subst h
  rw [toLowerL_append, toLowerL_append, hpat]
  exact hasSubstr_infix (toLowerL a) pat (toLowerL b)

/-- C1: `sendMessage` posts `/interaction/interact` with body `\x7bmessage: text\x7d`;
on an ok response it returns the parsed response object (whose `reply` field is
the outward message of the turn); on a non-ok response it throws. -/
theorem sendMessage_interact_contract (text : String) (resp : InteractHttp) :
    (sendMessage text (Except.ok resp)).1 = interactRequest text
    ∧ (interactRequest text).url = API_BASE_URL ++ "/interaction/interact"
    ∧ (interactRequest text).method = "POST"
    ∧ (interactRequest text).body = some (Json.obj [("message", Json.str text)])
    ∧ (resp.ok = true → (sendMessage text (Except.ok resp)).2 = Except.ok resp.data)
    ∧ (resp.ok = false → (sendMessage text (Except.ok resp)).2
        = Except.error ("Failed to send message: " ++ resp.statusText)) := by
  refine ⟨rfl, rfl, rfl, rfl, ?_, ?_⟩ <;> intro h <;> simp [sendMessage, h]

theorem sendMessage_interact_contract_witness :
    (sendMessage "hello" (Except.ok ⟨true, "OK", ⟨some "What is OOP?"⟩⟩)).2
      = Except.ok ⟨some "What is OOP?"⟩
    ∧ (sendMessage "hello" (Except.ok ⟨false, "Bad Gateway", ⟨none⟩⟩)).2
      = Except.error ("Failed to send message: " ++ "Bad Gateway") :=
  ⟨(sendMessage_interact_contract "hello" ⟨true, "OK", ⟨some "What is OOP?"⟩⟩).2.2.2.2.1 rfl,
   (sendMessage_interact_contract "hello" ⟨false, "Bad Gateway", ⟨none⟩⟩).2.2.2.2.2 rfl⟩

/-- C2: `deleteSession` always completes without throwing; with
`navigator.sendBeacon` available it fires a beacon, otherwise a keepalive
fetch whose rejection is caught and only logged. -/
theorem deleteSession_never_throws (hasSendBeacon : Bool) (fetchOutcome : Except String Unit) :
    (∃ d, deleteSession hasSendBeacon fetchOutcome = Except.ok d)
    ∧ (hasSendBeacon = true →
        deleteSession hasSendBeacon fetchOutcome
          = Except.ok (DeleteDelivery.beacon (API_BASE_URL ++ "/session/delete") "\x7b\x7d"))
    ∧ (hasSendBeacon = false → ∃ logged,
        deleteSession hasSendBeacon fetchOutcome
          = Except.ok (DeleteDelivery.keepaliveFetch deleteRequest logged)) := by
  cases hasSendBeacon with
  | true =>
    exact ⟨⟨_, rfl⟩, fun _ => rfl, fun h => Bool.noConfusion h⟩
  | false =>
    cases fetchOutcome with
    | ok u => exact ⟨⟨_, rfl⟩, fun h => Bool.noConfusion h, fun _ => ⟨false, rfl⟩⟩
    | error e => exact ⟨⟨_, rfl⟩, fun h => Bool.noConfusion h, fun _ => ⟨true, rfl⟩⟩

theorem deleteSession_never_throws_witness :
    deleteSession true (Except.ok ())
      = Except.ok (DeleteDelivery.beacon (API_BASE_URL ++ "/session/delete") "\x7b\x7d")
    ∧ ∃ logged, deleteSession false (Except.error "network down")
      = Except.ok (DeleteDelivery.keepaliveFetch deleteRequest logged) :=
  ⟨(deleteSession_never_throws true (Except.ok ())).2.1 rfl,
   (deleteSession_never_throws false (Except.error "network down")).2.2 rfl⟩

/-- C3: on mount, `App` calls `startSession` (a POST to `/session/start`
with no body, returning the backend session object) and registers a
`beforeunload` listener that invokes `deleteSession`. -/
theorem app_session_lifecycle (resp : StartHttp) :
    appMountEffects = [MountEffect.apiStartSession,
      MountEffect.addEventListener "beforeunload" UnloadHandler.callDeleteSession]
    ∧ startSessionRequest.method = "POST"
    ∧ startSessionRequest.url = API_BASE_URL ++ "/session/start"
    ∧ startSessionRequest.body = none
    ∧ (startSession (Except.ok resp)).1 = startSessionRequest
    ∧ (resp.ok = true → (startSession (Except.ok resp)).2 = Except.ok resp.data) := by
  refine ⟨rfl, rfl, rfl, rfl, rfl, ?_⟩
  intro h
  simp [startSession, h]

theorem app_session_lifecycle_witness :
    (startSession (Except.ok ⟨true, "OK", Json.obj [("sessionId", Json.str "abc")]⟩)).2
      = Except.ok (Json.obj [("sessionId", Json.str "abc")]) :=
  (app_session_lifecycle ⟨true, "OK", Json.obj [("sessionId", Json.str "abc")]⟩).2.2.2.2.2 rfl

theorem noIntentPat_ne_nil : noIntentPat ≠ [] := by decide

theorem offTopicPat_ne_nil : offTopicPat ≠ [] := by decide

/-- C4: a backend reply containing either placeholder marker is replaced by
a fixed natural-language apology, and a failed `sendMessage` call appends
the fixed connection-trouble bot message instead of surfacing the error. -/
theorem handleSendMessage_natural_language (st : ChatState) (text r e : String)
    (data : InteractResponse) (a b : List Char)
    (hcontain : r.toList = a ++ (noIntentPat ++ b) ∨ r.toList = a ++ (offTopicPat ++ b))
    (hsend : trimL text.toList ≠ []) :
    (filterReply (some r) = some apologyNoIntent ∨ filterReply (some r) = some apologyOffTopic)
    ∧ (handleSendMessage st text (Except.ok data)).1.messages
        = st.messages ++ [ChatMsg.mk "user" (some text), ChatMsg.mk "bot" (filterReply data.reply)]
    ∧ (handleSendMessage st text (Except.error e)).1.messages
        = st.messages ++ [ChatMsg.mk "user" (some text), ChatMsg.mk "bot" (some serverTroubleMsg)] := by
  have hsend' : ¬(trimL text.data = []) := hsend
  refine ⟨?_, ?_, ?_⟩
  · have hne : ¬(r.data = []) := by
      rcases hcontain with h | h <;> rw [show r.data = r.toList from rfl, h] <;>
        simp [noIntentPat_ne_nil, offTopicPat_ne_nil]
    by_cases h1 : hasSubstr (toLowerL r.data) noIntentPat = true
    · left
      simp [filterReply, hne, h1]
    · right
      rcases hcontain with h | h
      · exact absurd (hasSubstr_toLower_of_verbatim r.toList a b noIntentPat
          toLowerL_noIntentPat h) h1
      · have h2 : hasSubstr (toLowerL r.data) offTopicPat = true :=
          hasSubstr_toLower_of_verbatim r.toList a b offTopicPat toLowerL_offTopicPat h
        simp [filterReply, hne, h1, h2]
  · simp [handleSendMessage, hsend']
  · simp [handleSendMessage, hsend']

theorem handleSendMessage_natural_language_witness :
    (filterReply (some "Reply: placeholder no intent detected.") = some apologyNoIntent
     ∨ filterReply (some "Reply: placeholder no intent detected.") = some apologyOffTopic)
    ∧ (handleSendMessage ⟨[], false⟩ "my answer"
        (Except.ok ⟨some "(placeholder) detected intent: off_topic"⟩)).1.messages
        = [] ++ [ChatMsg.mk "user" (some "my answer"),
                 ChatMsg.mk "bot" (filterReply (some "(placeholder) detected intent: off_topic"))]
    ∧ (handleSendMessage ⟨[], false⟩ "my answer" (Except.error "boom")).1.messages
        = [] ++ [ChatMsg.mk "user" (some "my answer"), ChatMsg.mk "bot" (some serverTroubleMsg)] :=
  handleSendMessage_natural_language ⟨[], false⟩ "my answer"
    "Reply: placeholder no intent detected." "boom"
    ⟨some "(placeholder) detected intent: off_topic"⟩
    "Reply: ".toList ".".toList (Or.inl (by decide)) (by decide)

/-- C10: when the trimmed input is empty, `handleSendMessage` returns at
once — no message appended, no typing indicator, no network request. -/
theorem handleSendMessage_blank_noop (st : ChatState) (text : String)
    (outcome : Except String InteractResponse)
    (h : trimL text.toList = []) :
    handleSendMessage st text outcome = (st, []) := by
  have h' : trimL text.data = [] := h
  simp [handleSendMessage, h']

theorem handleSendMessage_blank_noop_witness :
    handleSendMessage ⟨[ChatMsg.mk "bot" (some "hi")], false⟩ "   "
      (Except.ok ⟨some "ignored"⟩) = (⟨[ChatMsg.mk "bot" (some "hi")], false⟩, []) :=
  handleSendMessage_blank_noop ⟨[ChatMsg.mk "bot" (some "hi")], false⟩ "   "
    (Except.ok ⟨some "ignored"⟩) (by decide)

theorem nameAfterChange_inv (current inputValue : String)
    (h : current.toList.all isAsciiAlphaOrSpace = true) :
    (nameAfterChange current inputValue).toList.all isAsciiAlphaOrSpace = true := by
  unfold nameAfterChange
  split
  · next he => exact he
  · exact h

theorem nameAfterEvents_inv (events : List String) (current : String)
    (h : current.toList.all isAsciiAlphaOrSpace = true) :
    (List.foldl nameAfterChange current events).toList.all isAsciiAlphaOrSpace = true := by
  induction events generalizing current with
  | nil => exact h
  | cons e es ih => exact ih (nameAfterChange current e) (nameAfterChange_inv current e h)

/-- C9: the `name` state of `NameDialog` always matches `[A-Za-z\s]*` after
any sequence of change events, and `onNameSubmit` is only ever invoked with
the non-empty trimmed name — never for a blank or whitespace-only input. -/
theorem nameDialog_name_invariant (events : List String) (name v : String)
    (hsub : nameSubmit name = some v) :
    (nameAfterEvents events).toList.all isAsciiAlphaOrSpace = true
    ∧ v = String.mk (trimL name.toList)
    ∧ v ≠ ""
    ∧ trimL name.toList ≠ [] := by
  have htrim : trimL name.toList ≠ [] := by
    intro h
    have h' : trimL name.data = [] := h
    simp [nameSubmit, h'] at hsub
  have hv : v = String.mk (trimL name.toList) := by
    unfold nameSubmit at hsub
    rw [if_neg htrim] at hsub
    injection hsub with h
    exact h.symm
  refine ⟨nameAfterEvents_inv events "" (by decide), hv, ?_, htrim⟩
  intro hempty
  rw [hempty] at hv
  have hdata : ([] : List Char) = trimL name.toList := congrArg String.data hv
  exact htrim hdata.symm

theorem nameDialog_name_invariant_witness :
    (nameAfterEvents ["J", "Jo", "John Doe"]).toList.all isAsciiAlphaOrSpace = true
    ∧ "John" = String.mk (trimL "  John ".toList)
    ∧ "John" ≠ ""
    ∧ trimL "  John ".toList ≠ [] :=
  nameDialog_name_invariant ["J", "Jo", "John Doe"] "  John " "John" (by decide)

theorem stepTurn_noop_progress (s : Session) (inp : TurnInputs)
    (h : inp.intent = Intent.OffTopic ∨ inp.intent = Intent.Unintelligible) :
    (stepTurn s inp).1 = s := by
  obtain ⟨st, qid, ac⟩ := s
  obtain ⟨i, v, fq, nq, fu, rl⟩ := inp
  rcases h with h | h <;> cases h <;> cases st <;> rfl

theorem stepTurn_offTopic_refusal (s : Session) (inp : TurnInputs)
    (hi : inp.intent = Intent.OffTopic)
    (hact : s.state = SMState.AwaitingReady ∨ s.state = SMState.AwaitingAnswer
            ∨ s.state = SMState.AwaitingClarificationAck) :
    (stepTurn s inp).2 = Reply.refusal s.state := by
  obtain ⟨st, qid, ac⟩ := s
  obtain ⟨i, v, fq, nq, fu, rl⟩ := inp
  cases hi
  rcases hact with h | h | h <;> cases h <;> rfl

/-- C5: `OffTopic` and `Unintelligible` turns are no-ops on interview
progress — session state, `currentQuestionId` and `attemptCount` are
unchanged — and an off-topic turn in any active state is answered by the
fixed refusal message, identically across three consecutive off-topic
turns. -/
theorem offTopic_is_progress_noop (s : Session) (inp i1 i2 i3 : TurnInputs)
    (h : inp.intent = Intent.OffTopic ∨ inp.intent = Intent.Unintelligible)
    (h1 : i1.intent = Intent.OffTopic) (h2 : i2.intent = Intent.OffTopic)
    (h3 : i3.intent = Intent.OffTopic) :
    (stepTurn s inp).1 = s
    ∧ (stepTurn (stepTurn (stepTurn s i1).1 i2).1 i3).1 = s
    ∧ ((s.state = SMState.AwaitingReady ∨ s.state = SMState.AwaitingAnswer
        ∨ s.state = SMState.AwaitingClarificationAck) →
       (stepTurn s i1).2 = Reply.refusal s.state
       ∧ (stepTurn (stepTurn s i1).1 i2).2 = Reply.refusal s.state
       ∧ (stepTurn (stepTurn (stepTurn s i1).1 i2).1 i3).2 = Reply.refusal s.state) := by
  have n1 : (stepTurn s i1).1 = s := stepTurn_noop_progress s i1 (Or.inl h1)
  have n2 : (stepTurn (stepTurn s i1).1 i2).1 = s := by
    rw [n1]; exact stepTurn_noop_progress s i2 (Or.inl h2)
  have n3 : (stepTurn (stepTurn (stepTurn s i1).1 i2).1 i3).1 = s := by
    rw [n2]; exact stepTurn_noop_progress s i3 (Or.inl h3)
  refine ⟨stepTurn_noop_progress s inp h, n3, fun hact => ⟨?_, ?_, ?_⟩⟩
  · exact stepTurn_offTopic_refusal s i1 h1 hact
  · rw [n1]; exact stepTurn_offTopic_refusal s i2 h2 hact
  · rw [n2]; exact stepTurn_offTopic_refusal s i3 h3 hact

theorem offTopic_is_progress_noop_witness :
    (stepTurn ⟨SMState.AwaitingAnswer, some 3, 1⟩
        ⟨Intent.Unintelligible, Verdict.Correct, 0, some 4, 9, 3⟩).1
      = (⟨SMState.AwaitingAnswer, some 3, 1⟩ : Session)
    ∧ (stepTurn (stepTurn (stepTurn (⟨SMState.AwaitingAnswer, some 3, 1⟩ : Session)
          ⟨Intent.OffTopic, Verdict.Correct, 0, some 4, 9, 3⟩).1
          ⟨Intent.OffTopic, Verdict.Incorrect, 0, none, 7, 3⟩).1
          ⟨Intent.OffTopic, Verdict.Correct, 2, some 5, 8, 2⟩).1
      = (⟨SMState.AwaitingAnswer, some 3, 1⟩ : Session)
    ∧ (stepTurn (⟨SMState.AwaitingAnswer, some 3, 1⟩ : Session)
          ⟨Intent.OffTopic, Verdict.Correct, 0, some 4, 9, 3⟩).2
        = Reply.refusal SMState.AwaitingAnswer :=
  have h := offTopic_is_progress_noop ⟨SMState.AwaitingAnswer, some 3, 1⟩
    ⟨Intent.Unintelligible, Verdict.Correct, 0, some 4, 9, 3⟩
    ⟨Intent.OffTopic, Verdict.Correct, 0, some 4, 9, 3⟩
    ⟨Intent.OffTopic, Verdict.Incorrect, 0, none, 7, 3⟩
    ⟨Intent.OffTopic, Verdict.Correct, 2, some 5, 8, 2⟩
    (Or.inr rfl) rfl rfl rfl
  ⟨h.1, h.2.1, (h.2.2 (Or.inr (Or.inl rfl))).1⟩

/-- C6: on every turn, `attemptCount` is reset to 0 exactly when
`currentQuestionId` changes (otherwise it is kept or incremented by one),
and the invariant that `currentQuestionId` is non-null in `AwaitingAnswer`
and `AwaitingClarificationAck` is preserved.  The freshness hypotheses say
the Question Selector and the follow-up generator produce a question
different from the active one, and that a session still in `AwaitingReady`
has no active question (it was created empty in that state). -/
theorem attemptCount_reset_iff_question_changed (s : Session) (inp : TurnInputs)
    (hready : s.state = SMState.AwaitingReady → s.currentQuestionId = none)
    (hnext : ∀ q, inp.nextQuestion = some q → s.currentQuestionId ≠ some q)
    (hfollow : s.currentQuestionId ≠ some inp.followUpQuestion) :
    ((stepTurn s inp).1.currentQuestionId ≠ s.currentQuestionId →
      (stepTurn s inp).1.attemptCount = 0)
    ∧ ((stepTurn s inp).1.currentQuestionId = s.currentQuestionId →
      (stepTurn s inp).1.attemptCount = s.attemptCount
      ∨ (stepTurn s inp).1.attemptCount = s.attemptCount + 1)
    ∧ (questionNonNullInv s = true → questionNonNullInv (stepTurn s inp).1 = true) := by
  obtain ⟨st, qid, ac⟩ := s
  obtain ⟨i, v, fq, nq, fu, rl⟩ := inp
  cases st <;> cases i <;>
    simp_all [stepTurn, questionNonNullInv] <;>
    cases v <;>
    try simp_all [stepTurn, questionNonNullInv]
  all_goals
    rcases nq with _ | q <;>
      simp_all [stepTurn, questionNonNullInv] <;>
      try (split <;> simp_all [stepTurn, questionNonNullInv])
  all_goals (intro h; exact absurd h.symm (by assumption))

theorem attemptCount_reset_iff_question_changed_witness :
    ((stepTurn ⟨SMState.AwaitingAnswer, some 3, 1⟩
        ⟨Intent.Answer, Verdict.Correct, 0, some 4, 9, 3⟩).1.currentQuestionId ≠ some 3 →
      (stepTurn ⟨SMState.AwaitingAnswer, some 3, 1⟩
        ⟨Intent.Answer, Verdict.Correct, 0, some 4, 9, 3⟩).1.attemptCount = 0)
    ∧ ((stepTurn ⟨SMState.AwaitingAnswer, some 3, 1⟩
        ⟨Intent.Answer, Verdict.Correct, 0, some 4, 9, 3⟩).1.currentQuestionId = some 3 →
      (stepTurn ⟨SMState.AwaitingAnswer, some 3, 1⟩
        ⟨Intent.Answer, Verdict.Correct, 0, some 4, 9, 3⟩).1.attemptCount = 1
      ∨ (stepTurn ⟨SMState.AwaitingAnswer, some 3, 1⟩
        ⟨Intent.Answer, Verdict.Correct, 0, some 4, 9, 3⟩).1.attemptCount = 1 + 1)
    ∧ (questionNonNullInv ⟨SMState.AwaitingAnswer, some 3, 1⟩ = true →
      questionNonNullInv (stepTurn ⟨SMState.AwaitingAnswer, some 3, 1⟩
        ⟨Intent.Answer, Verdict.Correct, 0, some 4, 9, 3⟩).1 = true) :=
  attemptCount_reset_iff_question_changed ⟨SMState.AwaitingAnswer, some 3, 1⟩
    ⟨Intent.Answer, Verdict.Correct, 0, some 4, 9, 3⟩
    (by intro h; cases h)
    (by intro q hq; cases hq; decide)
    (by decide)

/-- C7: provided the pre-authored generic rephrase is keyword-free, the
clarification returned to the user never contains a rubric
`requiredConcepts` keyword verbatim, and whenever the oracle output does
contain one the service returns the generic rephrase instead. -/
theorem clarify_never_leaks_keywords (q : QuestionR) (oracleOut : List Char)
    (hsafe : ∀ kw ∈ rubricKeywords q, hasSubstr q.genericRephrase kw = false) :
    (∀ kw ∈ rubricKeywords q, hasSubstr (clarify q oracleOut) kw = false)
    ∧ (∀ kw ∈ rubricKeywords q, hasSubstr oracleOut kw = true →
        clarify q oracleOut = q.genericRephrase) := by
  by_cases hc : (rubricKeywords q).any (fun kw => hasSubstr oracleOut kw) = true
  · have hcl : clarify q oracleOut = q.genericRephrase := by simp [clarify, hc]
    exact ⟨fun kw hkw => hcl ▸ hsafe kw hkw, fun kw hkw hin => hcl⟩
  · have hcl : clarify q oracleOut = oracleOut := by simp [clarify, hc]
    rw [List.any_eq_true] at hc
    push_neg at hc
    refine ⟨fun kw hkw => ?_, fun kw hkw hin => absurd hin (by simpa using hc kw hkw)⟩
    rw [hcl]
    simpa using hc kw hkw

theorem clarify_never_leaks_keywords_witness :
    hasSubstr (clarify
        ⟨"What is encapsulation in OOP?",
         [⟨"mentions data hiding", 1, ["encapsulation".toList, "data hiding".toList]⟩],
         "Think about how a class groups its fields and methods".toList⟩
        "The answer is encapsulation".toList)
      "encapsulation".toList = false
    ∧ clarify
        ⟨"What is encapsulation in OOP?",
         [⟨"mentions data hiding", 1, ["encapsulation".toList, "data hiding".toList]⟩],
         "Think about how a class groups its fields and methods".toList⟩
        "The answer is encapsulation".toList
      = "Think about how a class groups its fields and methods".toList :=
  have h := clarify_never_leaks_keywords
    ⟨"What is encapsulation in OOP?",
     [⟨"mentions data hiding", 1, ["encapsulation".toList, "data hiding".toList]⟩],
     "Think about how a class groups its fields and methods".toList⟩
    "The answer is encapsulation".toList (by decide)
  ⟨h.1 "encapsulation".toList (by decide), h.2 "encapsulation".toList (by decide) (by decide)⟩

theorem detCriterion_mono (m1 m2 : List Char → Bool)
    (hm : ∀ kw, m1 kw = true → m2 kw = true) (c : RubricCriterion)
    (h : detCriterion m1 c = true) : detCriterion m2 c = true := by
  simp only [detCriterion, List.all_eq_true] at h ⊢
  exact fun kw hkw => hm kw (h kw hkw)

theorem evalScore_mono (criteria : List RubricCriterion) (m1 m2 : List Char → Bool)
    (sem : RubricCriterion → Bool)
    (hw : ∀ c ∈ criteria, 0 ≤ c.weight)
    (hm : ∀ kw, m1 kw = true → m2 kw = true) :
    evalScore criteria m1 sem ≤ evalScore criteria m2 sem := by
  induction criteria with
  | nil => exact le_refl _
  | cons c cs ih =>
    have hterm : (if detCriterion m1 c || sem c then c.weight else 0)
        ≤ (if detCriterion m2 c || sem c then c.weight else 0) := by
      by_cases hd : (detCriterion m1 c || sem c) = true
      · have hd2 : (detCriterion m2 c || sem c) = true := by
          rcases Bool.or_eq_true_iff.mp hd with h | h
          · exact Bool.or_eq_true_iff.mpr (Or.inl (detCriterion_mono m1 m2 hm c h))
          · exact Bool.or_eq_true_iff.mpr (Or.inr h)
        rw [if_pos hd, if_pos hd2]
      · rw [if_neg hd]
        by_cases hd2 : (detCriterion m2 c || sem c) = true
        · rw [if_pos hd2]; exact hw c (List.mem_cons_self c cs)
        · rw [if_neg hd2]
    have htail : evalScore cs m1 sem ≤ evalScore cs m2 sem :=
      ih (fun d hd => hw d (List.mem_cons_of_mem c hd))
    simpa [evalScore] using add_le_add hterm htail

theorem verdictRank_mono_of_le (low high s1 s2 : ℚ) (h : s1 ≤ s2) :
    verdictRank (verdictOf low high s1) ≤ verdictRank (verdictOf low high s2) := by
  unfold verdictOf
  by_cases h1 : high ≤ s1
  · rw [if_pos h1, if_pos (le_trans h1 h)]
  · rw [if_neg h1]
    by_cases h2 : low ≤ s1
    · rw [if_pos h2]
      by_cases h3 : high ≤ s2
      · rw [if_pos h3]; decide
      · rw [if_neg h3, if_pos (le_trans h2 h)]
    · rw [if_neg h2]
      by_cases h3 : high ≤ s2
      · rw [if_pos h3]; decide
      · rw [if_neg h3]
        by_cases h4 : low ≤ s2
        · rw [if_pos h4]; decide
        · rw [if_neg h4]

/-- C8: for a fixed rubric and semantic-check outcome, enlarging the set of
deterministically matched required concepts never decreases the weighted
score, and therefore never demotes the threshold verdict below its ordering
`Incorrect < PartiallyCorrect < Correct`. -/
theorem evaluation_monotonic (criteria : List RubricCriterion) (m1 m2 : List Char → Bool)
    (sem : RubricCriterion → Bool) (low high : ℚ)
    (hw : ∀ c ∈ criteria, 0 ≤ c.weight)
    (hm : ∀ kw, m1 kw = true → m2 kw = true) :
    evalScore criteria m1 sem ≤ evalScore criteria m2 sem
    ∧ verdictRank (verdictOf low high (evalScore criteria m1 sem))
      ≤ verdictRank (verdictOf low high (evalScore criteria m2 sem)) :=
  have hs := evalScore_mono criteria m1 m2 sem hw hm
  ⟨hs, verdictRank_mono_of_le low high _ _ hs⟩

/-- Deterministic matcher that finds no concept (for the witness). -/
def noConceptMatched : List Char → Bool := fun _ => false

/-- Deterministic matcher that finds every concept (for the witness). -/
def allConceptsMatched : List Char → Bool := fun _ => true

/-- Semantic check that accepts nothing (for the witness). -/
def semNever : RubricCriterion → Bool := fun _ => false

theorem evaluation_monotonic_witness :
    evalScore [⟨"names encapsulation", 1, ["encapsulation".toList]⟩]
        noConceptMatched semNever
      ≤ evalScore [⟨"names encapsulation", 1, ["encapsulation".toList]⟩]
        allConceptsMatched semNever
    ∧ verdictRank (verdictOf 1 2 (evalScore [⟨"names encapsulation", 1, ["encapsulation".toList]⟩]
        noConceptMatched semNever))
      ≤ verdictRank (verdictOf 1 2 (evalScore [⟨"names encapsulation", 1, ["encapsulation".toList]⟩]
        allConceptsMatched semNever)) :=
  evaluation_monotonic [⟨"names encapsulation", 1, ["encapsulation".toList]⟩]
    noConceptMatched allConceptsMatched semNever 1 2
    (by intro c hc; rw [List.mem_singleton] at hc; rw [hc]; decide)
    (fun kw h => Bool.noConfusion h)
end InterviewPracticePartner
